import Mathlib

/-!
Verification of the Spelldawn rules engine core against its specification.

The definitions below are a shallow embedding of the Rust source, chiefly
`crates/data/src/delegates.rs`, `crates/data/src/card_state.rs`,
`crates/data/src/game.rs` and `crates/rules/src/raid_phases.rs`.
Machine integers (`u32`, `usize`) are modelled as `Nat`; the sorting-key
counter and resource counters never approach their 32/64-bit bounds in the
properties considered, so no modular wrap is applied.  Fallible Rust code
(`Result`) is modelled with an `Except`-style monad whose fault value
distinguishes recoverable errors from panics.

Where a module of the repository is not available in the source tree
(`primitives.rs`, `deck.rs`, `actions.rs`, the `rules` crate's `mutations.rs`,
`queries.rs`, `flags.rs` and `dispatch.rs`), the corresponding definition is
modelled from the specification and marked `Modelled from the spec:` in its
doc comment.  Everything else is translated directly from the source.
-/

namespace Spelldawn

/-- The two player roles. From `primitives.rs` (not in the tree); the spec and
all source usage fix exactly two sides, the Overlord (defender role) and the
Champion (attacker role). -/
inductive Side
  | Overlord
  | Champion
deriving DecidableEq, Repr

/-- The opponent of a side. -/
def Side.opponent : Side → Side
  | .Overlord => .Champion
  | .Champion => .Overlord

/-- `CardId`: (side, index into that side's card vector). From `primitives.rs`
(not in the tree), as described by the spec data model and used throughout
`game.rs`. -/
structure CardId where
  side : Side
  index : Nat
deriving DecidableEq, Repr

/-- Room identifiers. `raid_phases.rs` matches on `Vault`, `Sanctum`, `Crypts`
and a wildcard for ordinary occupied rooms; two ordinary rooms suffice for the
properties below. -/
inductive RoomId
  | Vault
  | Sanctum
  | Crypts
  | RoomA
  | RoomB
deriving DecidableEq, Repr

/-- Position of a card within a room: `RoomLocation` from `primitives.rs`. -/
inductive RoomLocation
  | Defender
  | Occupant
deriving DecidableEq, Repr

/-- Position of a played item: `ItemLocation` from `primitives.rs`. -/
inductive ItemLocation
  | Weapons
  | Artifacts
deriving DecidableEq, Repr

/-- `CardPosition` from `card_state.rs`. -/
inductive CardPosition
  | DeckUnknown (side : Side)
  | DeckTop (side : Side)
  | Hand (side : Side)
  | Room (room : RoomId) (loc : RoomLocation)
  | ArenaItem (loc : ItemLocation)
  | DiscardPile (side : Side)
  | Scored (side : Side)
  | Identity (side : Side)
deriving DecidableEq, Repr

/-- `CardPositionKind` from `card_state.rs` (the `EnumKind` derive). -/
inductive CardPositionKind
  | DeckUnknown
  | DeckTop
  | Hand
  | Room
  | ArenaItem
  | DiscardPile
  | Scored
  | Identity
deriving DecidableEq, Repr

namespace CardPosition

/-- `CardPosition::kind` from `card_state.rs`. -/
def kind : CardPosition → CardPositionKind
  | .DeckUnknown _ => .DeckUnknown
  | .DeckTop _ => .DeckTop
  | .Hand _ => .Hand
  | .Room _ _ => .Room
  | .ArenaItem _ => .ArenaItem
  | .DiscardPile _ => .DiscardPile
  | .Scored _ => .Scored
  | .Identity _ => .Identity

/-- `CardPosition::in_play` from `card_state.rs`. -/
def in_play (p : CardPosition) : Bool :=
  p.kind = CardPositionKind.Room || p.kind = CardPositionKind.ArenaItem

/-- `CardPosition::in_hand` from `card_state.rs`. -/
def in_hand (p : CardPosition) : Bool :=
  p.kind = CardPositionKind.Hand

/-- `CardPosition::in_deck` from `card_state.rs`. -/
def in_deck (p : CardPosition) : Bool :=
  p.kind = CardPositionKind.DeckUnknown || p.kind = CardPositionKind.DeckTop

/-- `CardPosition::in_discard_pile` from `card_state.rs`. -/
def in_discard_pile (p : CardPosition) : Bool :=
  p.kind = CardPositionKind.DiscardPile

/-- `CardPosition::is_room_occupant` from `card_state.rs`. -/
def is_room_occupant (p : CardPosition) (room_id : RoomId) : Bool :=
  match p with
  | .Room room loc => room_id = room && loc = RoomLocation.Occupant
  | _ => false

/-- `CardPosition::in_score_pile` from `card_state.rs`. -/
def in_score_pile (p : CardPosition) : Bool :=
  p.kind = CardPositionKind.Scored

end CardPosition

/-! ## The Flag type (`delegates.rs`) -/

/-- `Flag` from `delegates.rs`: a boolean with a default state and an
override state set by delegates; an override of false takes precedence over an
override of true. -/
inductive Flag
  | Default (value : Bool)
  | Override (value : Bool)
deriving DecidableEq, Repr

namespace Flag

/-- `Flag::new` from `delegates.rs`. -/
def new (value : Bool) : Flag := .Default value

/-- `Flag::with_override` from `delegates.rs`: the first override replaces a
default; subsequent overrides combine with logical AND. -/
def with_override : Flag → Bool → Flag
  | .Default _, value => .Override value
  | .Override current, value => .Override (current && value)

/-- `impl From Flag for bool` from `delegates.rs`. -/
def toBool : Flag → Bool
  | .Default value => value
  | .Override value => value

/-- Applying a whole sequence of overrides in order (left to right), as the
query dispatcher folds delegate transformations. -/
def applyOverrides (f : Flag) (l : List Bool) : Flag :=
  l.foldl with_override f

end Flag

/-! ## Card state (`card_state.rs`) -/

/-- `CardData` from `card_state.rs`. The `ability_state` map is carried as the
list of ability indices with state, which is all the source ever stores
(`AbilityState` is an empty struct). -/
structure CardData where
  card_level : Nat := 0
  boost_count : Nat := 0
  stored_mana : Nat := 0
  ability_state : List Nat := []
  revealed_to_owner : Bool := false
  revealed_to_opponent : Bool := false
deriving DecidableEq, Repr

/-- `CardState` from `card_state.rs`. `CardName` is modelled as `String`
(canonical card names; `card_name.rs` is not in the tree). -/
structure CardState where
  id : CardId
  name : String
  side : Side
  data : CardData
  sorting_key : Nat
  position : CardPosition
deriving DecidableEq, Repr

namespace CardState

/-- `CardState::new` from `card_state.rs`: places the card in the side's deck,
or, when `is_identity` is true, into the identity zone revealed to both
players. -/
def new (id : CardId) (name : String) (is_identity : Bool) : CardState :=
  { id
    name
    side := id.side
    position := if is_identity then .Identity id.side else .DeckUnknown id.side
    sorting_key := 0
    data := { revealed_to_owner := is_identity, revealed_to_opponent := is_identity } }

/-- `CardState::set_position` from `card_state.rs`. -/
def set_position (c : CardState) (sorting_key : Nat) (position : CardPosition) : CardState :=
  { c with sorting_key, position }

/-- `CardState::set_revealed_to` from `card_state.rs`: sets the owner flag when
`side` owns the card and the opponent flag otherwise. -/
def set_revealed_to (c : CardState) (side : Side) (revealed : Bool) : CardState :=
  if c.id.side = side then
    { c with data := { c.data with revealed_to_owner := revealed } }
  else
    { c with data := { c.data with revealed_to_opponent := revealed } }

/-- `CardState::is_revealed_to` from `card_state.rs`. -/
def is_revealed_to (c : CardState) (side : Side) : Bool :=
  if c.id.side = side then c.data.revealed_to_owner else c.data.revealed_to_opponent

/-- `CardState::is_in_room` from `card_state.rs`. -/
def is_in_room (c : CardState) (room_id : RoomId) : Bool :=
  match c.position with
  | .Room id _ => id = room_id
  | _ => false

end CardState

/-! ## Prompts and raid data -/

/-- `RoomActivationAction` from `actions.rs` (not in the tree), as used by
`build_activation_prompt`. -/
inductive RoomActivationAction
  | Activate
  | Pass
deriving DecidableEq, Repr

/-- `EncounterAction` from `actions.rs` (not in the tree), as used by
`build_encounter_prompt`. -/
inductive EncounterAction
  | UseWeaponAbility (weapon : CardId) (defender : CardId)
  | NoWeapon
deriving DecidableEq, Repr

/-- `ContinueAction` from `actions.rs` (not in the tree), as used by
`build_continue_prompt`. -/
inductive ContinueAction
  | Advance
  | Retreat
deriving DecidableEq, Repr

/-- `PromptContext` from `actions.rs` (not in the tree), variants as used in
`raid_phases.rs`. -/
inductive PromptContext
  | ActivateRoom
  | RaidAdvance
deriving DecidableEq, Repr

/-- `PromptAction` from `actions.rs` (not in the tree), variants as used in
`raid_phases.rs`. -/
inductive PromptAction
  | ActivateRoomAction (action : RoomActivationAction)
  | EncounterAction (action : EncounterAction)
  | ContinueAction (action : ContinueAction)
  | RaidScoreCard (id : CardId)
  | RaidDestroyCard (id : CardId)
  | EndRaid
deriving DecidableEq, Repr

/-- `Prompt` from `actions.rs` (not in the tree), fields as constructed in
`raid_phases.rs`. -/
structure Prompt where
  context : Option PromptContext
  responses : List PromptAction
deriving DecidableEq, Repr

/-- `RaidPhase` as matched by `raid_phases.rs`: `Activation`,
`Encounter(usize)`, `Continue(usize)`, `Access`. -/
inductive RaidPhase
  | Activation
  | Encounter (defender_index : Nat)
  | Continue (defender_index : Nat)
  | Access
deriving DecidableEq, Repr

/-- `RaidState`: the fields of the version in `game.rs` (`raid_id`,
`encounter_number`, `priority`) together with the fields `raid_phases.rs`
dereferences (`target`, `phase`, `room_active`, `accessed`), whose declaring
version of `game.rs` is not in the tree; the spec lists raid id, target room,
phase, accessed card list, priority side and encounter index. -/
structure RaidState where
  raid_id : Nat
  target : RoomId
  phase : RaidPhase
  room_active : Bool
  accessed : List CardId
  priority : Side
  encounter_number : Nat
deriving DecidableEq, Repr

/-- Modelled from the spec: per-game configuration carrying the randomness
mode; `raid_phases.rs` branches on `game.data.config.deterministic`. -/
structure GameConfig where
  deterministic : Bool
deriving DecidableEq, Repr

/-- `GameData` from `game.rs`, extended with the `config` field referenced by
`raid_phases.rs` (its declaring version of `game.rs` is not in the tree). -/
structure GameData where
  turn : Side
  turn_number : Nat
  raid : Option RaidState
  config : GameConfig
deriving DecidableEq, Repr

/-- A tagged display-update record (`updates.rs` is not in the tree; the spec
describes an ordered sequence of tagged records). No claim inspects its
contents. -/
structure GameUpdate where
  tag : String
deriving DecidableEq, Repr

/-- `NewGameOptions` from `game.rs`. -/
structure NewGameOptions where
  enable_animations : Bool := false
deriving DecidableEq, Repr

/-- `PlayerState` from `game.rs` (`mana`, `actions`, `score`), extended with
the prompt slot written by `mutations::set_prompt` (modelled from the spec:
`mutations.rs` is not in the tree; exactly one player at a time holds an
actionable prompt while the opponent sees a waiting indicator). -/
structure PlayerState where
  mana : Nat := 0
  actions : Nat := 0
  score : Nat := 0
  prompt : Option Prompt := none
deriving DecidableEq, Repr

/-- Updates the element at index `i`, leaving the list unchanged when the
index is out of range. -/
def updateAt {α : Type} : List α → Nat → (α → α) → List α
  | [], _, _ => []
  | a :: t, 0, f => f a :: t
  | a :: t, n + 1, f => a :: updateAt t n f

/-! ## Game state (`game.rs`) -/

/-- `GameState` from `game.rs`. The `SortingKey` counter is `u32` in the
source; it is modelled as `Nat` (its value never approaches the 32-bit bound
in any property considered here, and all theorems use it on valid, in-range
ids). -/
structure GameState where
  id : Nat
  data : GameData
  updates : Option (List GameUpdate)
  overlord_cards : List CardState
  champion_cards : List CardState
  overlord : PlayerState
  champion : PlayerState
  next_sorting_key : Nat

namespace GameState

/-- `GameState::cards` from `game.rs`. -/
def cards (g : GameState) : Side → List CardState
  | .Overlord => g.overlord_cards
  | .Champion => g.champion_cards

/-- Helper for `cards_mut`: replace one side's card vector. -/
def setCards (g : GameState) : Side → List CardState → GameState
  | .Overlord, l => { g with overlord_cards := l }
  | .Champion, l => { g with champion_cards := l }

/-- `GameState::player` from `game.rs`. -/
def player (g : GameState) : Side → PlayerState
  | .Overlord => g.overlord
  | .Champion => g.champion

/-- Helper for `player_mut`: replace one side's player state. -/
def setPlayer (g : GameState) : Side → PlayerState → GameState
  | .Overlord, p => { g with overlord := p }
  | .Champion, p => { g with champion := p }

/-- `GameState::card` from `game.rs` indexes the side's card vector; the
partial lookup is surfaced here (the source panics on an out-of-range index). -/
def card? (g : GameState) (card_id : CardId) : Option CardState :=
  (g.cards card_id.side).get? card_id.index

/-- `GameState::card_mut` from `game.rs`, as a whole-state card update. The
source panics on an out-of-range index; this model leaves the state unchanged
there and is only used on valid ids by the theorems below. -/
def updateCardState (g : GameState) (card_id : CardId) (f : CardState → CardState) : GameState :=
  g.setCards card_id.side (updateAt (g.cards card_id.side) card_id.index f)

/-- `GameState::move_card` from `game.rs`: stamps the current value of the
monotonic sorting-key counter on the card, sets its position, and increments
the counter. -/
def move_card (g : GameState) (card_id : CardId) (new_position : CardPosition) : GameState :=
  let key := g.next_sorting_key
  let g2 := g.updateCardState card_id
    (fun c => { c with position := new_position, sorting_key := key })
  { g2 with next_sorting_key := g2.next_sorting_key + 1 }

/-- `GameState::random_card` from `game.rs`: chooses from the chained iterator
over both card vectors; the `position` parameter is unused by the source body.
The thread-local rng draw is modelled by the pick `k`; `choose` yields `None`
exactly when the iterator is empty. -/
def random_card (g : GameState) (_position : CardPosition) (k : Nat) : Option CardId :=
  let all := g.overlord_cards ++ g.champion_cards
  (all.get? (k % all.length)).map (fun c => c.id)

/-- `GameState::hand` from `game.rs`. -/
def hand (g : GameState) (side : Side) : List CardState :=
  (g.cards side).filter (fun c => c.position.in_hand)

/-- `GameState::discard_pile` from `game.rs`. -/
def discard_pile (g : GameState) (side : Side) : List CardState :=
  (g.cards side).filter (fun c => c.position.in_discard_pile)

/-- `GameState::all_cards` from `game.rs`. -/
def all_cards (g : GameState) : List CardState :=
  g.overlord_cards ++ g.champion_cards

/-- `GameState::make_deck` from `game.rs`: builds one `CardState` per deck
name via `CardState::new(CardId::new(side, index), *name, side)`. The third
argument of `CardState::new` is declared `is_identity: bool`, but the call
passes `side: Side` — a type mismatch in the source. The model therefore takes
the constant boolean actually fed to every card as the parameter `b`,
covering both possible readings of the ill-typed call. A deck is its list of
card names (`deck.rs` is not in the tree). -/
def make_deck (b : Bool) (deck : List String) (side : Side) : List CardState :=
  deck.enum.map (fun p => CardState.new ⟨side, p.1⟩ p.2 b)

/-- `GameState::new_game` from `game.rs`, with the same reading parameter `b`
threaded to `make_deck`. The `config` field absent from this version's
`GameData` literal is defaulted to non-deterministic mode. -/
def new_game (b : Bool) (id : Nat) (overlord_deck champion_deck : List String)
    (options : NewGameOptions) : GameState :=
  { id
    overlord_cards := make_deck b overlord_deck Side.Overlord
    champion_cards := make_deck b champion_deck Side.Champion
    overlord := {}
    champion := {}
    data := { turn := Side.Overlord, turn_number := 1, raid := none,
              config := { deterministic := false } }
    updates := if options.enable_animations then some [] else none
    next_sorting_key := 1 }

end GameState

/-- The number of cards of a card vector sitting in the Identity position —
the count `GameState::identity` requires to be exactly one per side. -/
def identityCount (cards : List CardState) : Nat :=
  cards.countP (fun c => decide (c.position.kind = CardPositionKind.Identity))

/-- Applying a sequence of `move_card` calls in order. -/
def applyMoves (g : GameState) (ms : List (CardId × CardPosition)) : GameState :=
  ms.foldl (fun gg m => gg.move_card m.1 m.2) g

/-- The sorting key stamped by the k-th `move_card` call of the sequence: the
value of the counter when that call runs. -/
def assignedKey (g : GameState) (ms : List (CardId × CardPosition)) (k : Nat) : Nat :=
  (applyMoves g (ms.take k)).next_sorting_key

/-- A concrete one-card game used to witness C2. -/
def c2WitnessGame : GameState :=
  { id := 1
    overlord_cards := [CardState.new ⟨Side.Overlord, 0⟩ "Frog" false]
    champion_cards := []
    overlord := {}
    champion := {}
    data := { turn := Side.Overlord, turn_number := 1, raid := none,
              config := { deterministic := true } }
    updates := none
    next_sorting_key := 1 }

/-- A concrete two-element move sequence used to witness C2. -/
def c2WitnessMoves : List (CardId × CardPosition) :=
  [(⟨Side.Overlord, 0⟩, CardPosition.Hand Side.Overlord),
   (⟨Side.Overlord, 0⟩, CardPosition.DiscardPile Side.Overlord)]

/-! ## Fallible execution (`anyhow::Result` values and panics) -/

/-- Failure value distinguishing a recoverable error (a Rust `Err`, e.g. one
built by `with_error`) from a panic (`expect` or an index out of bounds). A
raid-phase function returning `Except.error (Fault.recoverable m)` surfaces a
`Result::Err` to its caller; `Fault.panicked m` models an unwinding panic. -/
inductive Fault
  | recoverable (msg : String)
  | panicked (msg : String)
deriving DecidableEq, Repr

/-- Result type of fallible engine code. -/
abbrev Res (α : Type) := Except Fault α

/-- `WithError::with_error` applied to an `Option` (from `with_error.rs`, not
in the tree): a missing value becomes a recoverable error with the given
message. -/
def withErr {α : Type} (msg : String) : Option α → Res α
  | some a => .ok a
  | none => .error (.recoverable msg)

/-- Whether a card id indexes an existing card of the game. -/
def ValidId (g : GameState) (id : CardId) : Prop :=
  id.index < (g.cards id.side).length

/-- Reveal lookup on the whole game state: the card's per-observer flag, read
through `GameState::card`. -/
def isRevealedTo (g : GameState) (id : CardId) (side : Side) : Bool :=
  match g.card? id with
  | some c => c.is_revealed_to side
  | none => false

/-- Checks that every card of a vector carries the id (side, i) of its slot,
starting from slot `start`. -/
def consistentFrom (side : Side) (start : Nat) : List CardState → Bool
  | [] => true
  | c :: t => decide (c.id = ⟨side, start⟩) && consistentFrom side (start + 1) t

/-- Well-formedness established by game construction: the card at index i of
a side's vector carries id (side, i). Moves and reveals never change ids, so
every mutation primitive preserves this. -/
def idsConsistent (g : GameState) : Bool :=
  consistentFrom Side.Overlord 0 g.overlord_cards &&
  consistentFrom Side.Champion 0 g.champion_cards

/-! ## The query, flag and rng collaborators of `raid_phases.rs` -/

/-- Card types, from `primitives.rs` (not in the tree); the variants matched
by `access_prompt_for_card` plus the Weapon and Minion types the raid logic
relies on. -/
inductive CardType
  | Scheme
  | Project
  | Upgrade
  | Minion
  | Weapon
  | Artifact
  | Spell
deriving DecidableEq, Repr

/-- Modelled from the spec: the collaborators `raid_phases.rs` calls whose
defining modules are not in the tree — the query/flag subsystem of the
`rules` crate (`queries.rs`, `flags.rs`, backed by `dispatch.rs`), the
card-definition lookup (`card_definition.rs`, giving a card's type from its
name), and the realized uniform without-replacement random draw used in
non-deterministic mode. Each field is exactly one function the raid code
invokes; theorems quantify over all of them. -/
structure Oracles where
  mana_cost : GameState → CardId → Option Nat
  vault_access_count : GameState → Nat
  sanctum_access_count : GameState → Nat
  can_defeat_target : GameState → CardId → CardId → Bool
  can_score_card : GameState → Side → CardId → Bool
  can_destroy_accessed_card : GameState → CardId → Bool
  card_type : String → CardType
  choose_multiple : List CardId → Nat → List CardId

/-! ## Mutation primitives used by `raid_phases.rs` (`mutations.rs` not in
the tree) -/

/-- Modelled from the spec: `mutations::spend_mana` deducts the amount from
the player's mana pool; resources cannot go negative (callers establish
affordability first). The display-update record is not modelled. -/
def spend_mana (g : GameState) (side : Side) (amount : Nat) : GameState :=
  g.setPlayer side { g.player side with mana := (g.player side).mana - amount }

/-- Modelled from the spec: `mutations::set_revealed_to` sets the card's
per-observer reveal flag for the given side. -/
def set_revealed_to (g : GameState) (card_id : CardId) (side : Side) (revealed : Bool) :
    GameState :=
  g.updateCardState card_id (fun c => c.set_revealed_to side revealed)

/-- Modelled from the spec: `mutations::set_prompt` hands the actionable
prompt to one player while the opponent is left with only the non-actionable
waiting indicator (no stored prompt). -/
def set_prompt (g : GameState) (side : Side) (prompt : Prompt) : GameState :=
  let g1 := g.setPlayer side { g.player side with prompt := some prompt }
  g1.setPlayer side.opponent { g1.player side.opponent with prompt := none }

/-- Ordering of deck cards with the top first: higher sorting keys are closer
to the top of a position (`card_state.rs`). -/
def deckOrder (a b : CardState) : Prop := b.sorting_key ≤ a.sorting_key

instance : DecidableRel deckOrder := fun a b => Nat.decLe b.sorting_key a.sorting_key

/-- The side's deck, top card first. -/
def deckTopFirst (g : GameState) (side : Side) : List CardState :=
  ((g.cards side).filter (fun c => c.position.in_deck)).insertionSort deckOrder

/-- Modelled from the spec: `mutations::realize_top_of_deck` realizes `count`
cards from the top of the side's deck — the literal top cards in order in
deterministic mode, a uniform without-replacement draw otherwise — moves them
to the known deck-top position, and returns their ids. -/
def realize_top_of_deck (o : Oracles) (g : GameState) (side : Side) (count : Nat) :
    List CardId × GameState :=
  let ids :=
    if g.data.config.deterministic then
      ((deckTopFirst g side).map (fun c => c.id)).take count
    else
      o.choose_multiple ((deckTopFirst g side).map (fun c => c.id)) count
  (ids, ids.foldl (fun gg i => gg.move_card i (CardPosition.DeckTop side)) g)

/-! ## Game accessors used by `raid_phases.rs` whose declaring version of
`game.rs` is not in the tree -/

/-- `GameState::defender_list`: the defenders of a room in encounter-index
order (the order among them is irrelevant to the properties below). -/
def GameState.defender_list (g : GameState) (room_id : RoomId) : List CardState :=
  (g.cards Side.Overlord).filter
    (fun c => decide (c.position = CardPosition.Room room_id RoomLocation.Defender))

/-- `GameState::card_list_for_position`: the side's cards in the given
position. -/
def GameState.card_list_for_position (g : GameState) (side : Side)
    (position : CardPosition) : List CardState :=
  (g.cards side).filter (fun c => decide (c.position = position))

/-- `GameState::occupants`: the occupant cards of a room. -/
def GameState.occupants (g : GameState) (room_id : RoomId) : List CardState :=
  g.all_cards.filter (fun c => c.position.is_room_occupant room_id)

/-- `GameState::weapons` as consumed by `build_encounter_prompt`. Modelled
from the spec: the attacker's weapons in play — Champion cards in play whose
definition has the Weapon card type. -/
def weapons (o : Oracles) (g : GameState) : List CardState :=
  (g.cards Side.Champion).filter
    (fun c => c.position.in_play && decide (o.card_type c.name = CardType.Weapon))

/-! ## The raid phase functions (`raid_phases.rs`) -/

/-- `find_defender` from `raid_phases.rs`: the defending card id at `index`
in the indicated room; a missing index is the recoverable error the source
builds with `with_error` (the string is the source's). -/
def find_defender (g : GameState) (room_id : RoomId) (index : Nat) : Res CardId :=
  withErr "Defender Not Found" (((g.defender_list room_id).get? index).map (fun c => c.id))

/-- `can_reveal_defender` from `raid_phases.rs`: true when the defender at
the index is not yet revealed to the Champion but can be revealed by paying
its mana cost, which also requires the room to be active. The source calls
`game.raid().expect("Active Raid")` and `find_defender(..).expect("Defender")`
— both panic, as does the card-vector index inside `game.card` — so every
failure of this function is a panic. -/
def can_reveal_defender (o : Oracles) (g : GameState) (defender_index : Nat) : Res Bool :=
  match g.data.raid with
  | none => .error (.panicked "Active Raid")
  | some raid =>
    match find_defender g raid.target defender_index with
    | .error _ => .error (.panicked "Defender")
    | .ok defender_id =>
      match g.card? defender_id with
      | none => .error (.panicked "index out of bounds")
      | some card =>
        .ok (raid.room_active && !(card.is_revealed_to Side.Champion) &&
          (match o.mana_cost g defender_id with
           | some cost => decide (cost ≤ (g.player Side.Overlord).mana)
           | none => false))

/-- `accessed_cards` from `raid_phases.rs`: the cards accessed for the
current raid target — Vault: realized top of the Overlord's deck (count from
the vault-access query); Sanctum: a sample of the Overlord's hand (count from
the sanctum-access query, first cards in deterministic mode, a uniform draw
otherwise); Crypts: the discard-pile cards not already revealed to the
Champion; any other room: its occupants. This is the room-type match of
`accessed_cards`, returning the accessed ids together with the (possibly
mutated) game state. -/
def accessed_pair (o : Oracles) (g : GameState) : RoomId → List CardId × GameState
  | RoomId.Vault => realize_top_of_deck o g Side.Overlord (o.vault_access_count g)
  | RoomId.Sanctum =>
    let count := o.sanctum_access_count g
    if g.data.config.deterministic then
      (((g.hand Side.Overlord).map (fun c => c.id)).take count, g)
    else
      (o.choose_multiple ((g.hand Side.Overlord).map (fun c => c.id)) count, g)
  | RoomId.Crypts =>
    (((g.card_list_for_position Side.Overlord
          (CardPosition.DiscardPile Side.Overlord)).filter
        (fun c => !(c.is_revealed_to Side.Champion))).map (fun c => c.id), g)
  | target => ((g.occupants target).map (fun c => c.id), g)

/-- `accessed_cards` from `raid_phases.rs`: computes the accessed-card list
for the current raid target via `accessed_pair` and then marks every accessed
card revealed to the Champion. -/
def accessed_cards (o : Oracles) (g : GameState) : Res (List CardId × GameState) :=
  match g.data.raid with
  | none => .error (.recoverable "Raid")
  | some r =>
    let pair := accessed_pair o g r.target
    .ok (pair.1,
      pair.1.foldl (fun gg i => set_revealed_to gg i Side.Champion true) pair.2)

/-- `build_activation_prompt` from `raid_phases.rs`. -/
def build_activation_prompt : Prompt :=
  { context := some PromptContext.ActivateRoom
    responses := [PromptAction.ActivateRoomAction RoomActivationAction.Activate,
                  PromptAction.ActivateRoomAction RoomActivationAction.Pass] }

/-- `build_encounter_prompt` from `raid_phases.rs`: one weapon action per
weapon that can defeat the defender, plus the no-weapon action. -/
def build_encounter_prompt (o : Oracles) (g : GameState) (defender : Nat) : Res Prompt :=
  match g.data.raid with
  | none => .error (.recoverable "Raid")
  | some r =>
    match find_defender g r.target defender with
    | .error e => .error e
    | .ok defender_id =>
      .ok { context := none
            responses :=
              ((weapons o g).filter (fun w => o.can_defeat_target g w.id defender_id)).map
                (fun w => PromptAction.EncounterAction
                  (EncounterAction.UseWeaponAbility w.id defender_id)) ++
              [PromptAction.EncounterAction EncounterAction.NoWeapon] }

/-- `build_continue_prompt` from `raid_phases.rs`. -/
def build_continue_prompt : Prompt :=
  { context := some PromptContext.RaidAdvance
    responses := [PromptAction.ContinueAction ContinueAction.Advance,
                  PromptAction.ContinueAction ContinueAction.Retreat] }

/-- `access_prompt_for_card` from `raid_phases.rs`: a score action for a
scorable Scheme, a destroy action for a destroyable Project or Upgrade,
nothing otherwise. The source's definition lookup indexes the card vector
(panics on an invalid id); accessed ids always reference existing cards, and
the model yields no action there. -/
def access_prompt_for_card (o : Oracles) (g : GameState) (card_id : CardId) :
    Option PromptAction :=
  match g.card? card_id with
  | none => none
  | some c =>
    match o.card_type c.name with
    | CardType.Scheme =>
      if o.can_score_card g Side.Champion card_id then
        some (PromptAction.RaidScoreCard card_id)
      else none
    | CardType.Project =>
      if o.can_destroy_accessed_card g card_id then
        some (PromptAction.RaidDestroyCard card_id)
      else none
    | CardType.Upgrade =>
      if o.can_destroy_accessed_card g card_id then
        some (PromptAction.RaidDestroyCard card_id)
      else none
    | _ => none

/-- `build_access_prompt` from `raid_phases.rs`: one action per accessed card
that admits one, plus the always-available end-raid action. -/
def build_access_prompt (o : Oracles) (g : GameState) : Res Prompt :=
  match g.data.raid with
  | none => .error (.recoverable "Raid")
  | some r =>
    .ok { context := none
          responses := (r.accessed.filterMap (access_prompt_for_card o g)) ++
            [PromptAction.EndRaid] }

/-- `set_raid_prompt` from `raid_phases.rs`: computes the single active
player and their prompt from the raid phase — the Overlord during
Activation, the Champion during Encounter, Continue and Access — and stores
it via `mutations::set_prompt`. -/
def set_raid_prompt (o : Oracles) (g : GameState) : Res GameState :=
  match g.data.raid with
  | none => .error (.recoverable "Raid")
  | some r =>
    match (match r.phase with
      | RaidPhase.Activation => Except.ok (Side.Overlord, build_activation_prompt)
      | RaidPhase.Encounter defender =>
        match build_encounter_prompt o g defender with
        | .error e => .error e
        | .ok p => .ok (Side.Champion, p)
      | RaidPhase.Continue _ => Except.ok (Side.Champion, build_continue_prompt)
      | RaidPhase.Access =>
        match build_access_prompt o g with
        | .error e => .error e
        | .ok p => .ok (Side.Champion, p) : Res (Side × Prompt)) with
    | .error e => .error e
    | .ok (active_player, prompt) => .ok (set_prompt g active_player prompt)

/-- `on_enter_raid_phase` from `raid_phases.rs`: phase-entry updates. On
entering Encounter(n), when `can_reveal_defender` holds the engine spends the
defender's mana cost from the Overlord's pool and reveals the defender to the
Champion; on entering Access it computes and stores the accessed-card list;
it finishes by setting the raid prompt. -/
def on_enter_raid_phase (o : Oracles) (g : GameState) : Res GameState :=
  match g.data.raid with
  | none => .error (.recoverable "Raid")
  | some r =>
    match (match r.phase with
      | RaidPhase.Activation => Except.ok g
      | RaidPhase.Encounter defender_index =>
        match can_reveal_defender o g defender_index with
        | .error e => .error e
        | .ok cr =>
          if cr then
            match g.data.raid with
            | none => .error (.recoverable "Raid")
            | some r2 =>
              match find_defender g r2.target defender_index with
              | .error e => .error e
              | .ok defender_id =>
                match o.mana_cost g defender_id with
                | none => .error (.recoverable "Expected cost")
                | some cost =>
                  .ok (set_revealed_to (spend_mana g Side.Overlord cost)
                    defender_id Side.Champion true)
          else Except.ok g
      | RaidPhase.Continue _ => Except.ok g
      | RaidPhase.Access =>
        match accessed_cards o g with
        | .error e => .error e
        | .ok (acc, g1) =>
          match g1.data.raid with
          | none => .error (.recoverable "Raid")
          | some r1 =>
            .ok { g1 with
              data := { g1.data with raid := some { r1 with accessed := acc } } }
        : Res GameState) with
    | .error e => .error e
    | .ok g2 => set_raid_prompt o g2

/-- `set_raid_phase` from `raid_phases.rs`: updates the phase of the ongoing
raid and invokes the phase-entry callbacks. -/
def set_raid_phase (o : Oracles) (g : GameState) (phase : RaidPhase) : Res GameState :=
  match g.data.raid with
  | none => .error (.recoverable "Raid")
  | some r =>
    on_enter_raid_phase o
      { g with data := { g.data with raid := some { r with phase } } }

/-- The side holding the actionable prompt in a raid phase, as computed by
`set_raid_prompt`: the Overlord during Activation, the Champion during
Encounter, Continue and Access. -/
def raidActiveSide : RaidPhase → Side
  | RaidPhase.Activation => Side.Overlord
  | _ => Side.Champion

/-! ## Concrete instances used by witnesses and counterexamples -/

/-- A concrete deterministic oracle assignment: every card costs 1 mana, all
access counts are 1, every card is a scorable Scheme, no weapon can defeat
anything, and the random draw takes the first elements. -/
def detOracles : Oracles :=
  { mana_cost := fun _ _ => some 1
    vault_access_count := fun _ => 1
    sanctum_access_count := fun _ => 1
    can_defeat_target := fun _ _ _ => false
    can_score_card := fun _ _ _ => true
    can_destroy_accessed_card := fun _ _ => true
    card_type := fun _ => CardType.Scheme
    choose_multiple := fun l n => l.take n }

/-- A raid in the Activation phase against the Vault with no defenders. -/
def c9Raid : RaidState :=
  { raid_id := 1
    target := RoomId.Vault
    phase := RaidPhase.Activation
    room_active := false
    accessed := []
    priority := Side.Champion
    encounter_number := 0 }

/-- A concrete game with an active raid and no cards at all. -/
def c9Game : GameState :=
  { id := 9
    overlord_cards := []
    champion_cards := []
    overlord := {}
    champion := {}
    data := { turn := Side.Champion, turn_number := 1, raid := some c9Raid,
              config := { deterministic := true } }
    updates := none
    next_sorting_key := 1 }

/-- The state `set_raid_prompt` produces on `c9Game`. -/
def c7Result : GameState := set_prompt c9Game Side.Overlord build_activation_prompt

/-- A concrete unrevealed defender of an ordinary room. -/
def c4Defender : CardState :=
  { id := ⟨Side.Overlord, 0⟩
    name := "Guard"
    side := Side.Overlord
    data := {}
    sorting_key := 0
    position := CardPosition.Room RoomId.RoomA RoomLocation.Defender }

/-- A raid entering Encounter(0) on a room that has not been activated. -/
def c4Raid : RaidState :=
  { raid_id := 1
    target := RoomId.RoomA
    phase := RaidPhase.Encounter 0
    room_active := false
    accessed := []
    priority := Side.Champion
    encounter_number := 0 }

/-- A concrete game entering Encounter(0): the defender is unrevealed and
affordable, but the room is not active. -/
def c4Game : GameState :=
  { id := 4
    overlord_cards := [c4Defender]
    champion_cards := []
    overlord := { mana := 5 }
    champion := {}
    data := { turn := Side.Champion, turn_number := 1, raid := some c4Raid,
              config := { deterministic := true } }
    updates := none
    next_sorting_key := 1 }

/-- The `c4Raid` raid with the room active. -/
def c4RevealRaid : RaidState := { c4Raid with room_active := true }

/-- The `c4Game` game with the room active, so the phase-entry reveal fires. -/
def c4RevealGame : GameState :=
  { c4Game with data := { c4Game.data with raid := some c4RevealRaid } }

/-- A discard-pile card not revealed to the Champion. -/
def c5Hidden : CardState :=
  { id := ⟨Side.Overlord, 0⟩
    name := "Skull"
    side := Side.Overlord
    data := {}
    sorting_key := 1
    position := CardPosition.DiscardPile Side.Overlord }

/-- A discard-pile card already revealed to the Champion. -/
def c5Shown : CardState :=
  { id := ⟨Side.Overlord, 1⟩
    name := "Bone"
    side := Side.Overlord
    data := { revealed_to_opponent := true }
    sorting_key := 2
    position := CardPosition.DiscardPile Side.Overlord }

/-- A raid entering the Access phase against the Crypts. -/
def c5Raid : RaidState :=
  { raid_id := 1
    target := RoomId.Crypts
    phase := RaidPhase.Access
    room_active := false
    accessed := []
    priority := Side.Champion
    encounter_number := 0 }

/-- A concrete game accessing the Crypts with one hidden and one already
revealed discard card. -/
def c5Game : GameState :=
  { id := 5
    overlord_cards := [c5Hidden, c5Shown]
    champion_cards := []
    overlord := {}
    champion := {}
    data := { turn := Side.Champion, turn_number := 1, raid := some c5Raid,
              config := { deterministic := true } }
    updates := none
    next_sorting_key := 3 }

/-- The accessed-card list and resulting state of the Crypts access on
`c5Game`. -/
def c6Pair : List CardId × GameState :=
  match accessed_cards detOracles c5Game with
  | .ok p => p
  | .error _ => ([], c5Game)

/-! ## The delegate cache and event dispatch (`dispatch.rs` not in the tree;
`delegates.rs` documents the ordering: Overlord delegates are always invoked
before Champion delegates, in alphabetical order by card name) -/

/-- Modelled from the spec: one cache entry as assembled by `rebuild_cache`
(`dispatch.rs` is not in the tree) — the owning side and canonical card name
of the delegate's scope, the card position index used as the stable
tie-break, and the delegate's requirement and mutation functions, mirroring
`DelegateContext` in `delegates.rs`. -/
structure DelegateContextM where
  side : Side
  card_name : String
  position_index : Nat
  requirement : GameState → Nat → Bool
  mutation : GameState → Nat → GameState

/-- The sort key of a cache entry: canonical card name (lexicographic),
tie-broken by card position index. -/
def delegateKey (d : DelegateContextM) : Lex (String × Nat) :=
  toLex (d.card_name, d.position_index)

/-- The within-side ordering of cache entries. -/
def delegateOrder (a b : DelegateContextM) : Prop := delegateKey a ≤ delegateKey b

instance : DecidableRel delegateOrder := fun a b =>
  inferInstanceAs (Decidable (delegateKey a ≤ delegateKey b))

instance : IsTotal DelegateContextM delegateOrder :=
  ⟨fun a b => le_total (delegateKey a) (delegateKey b)⟩

instance : IsTrans DelegateContextM delegateOrder :=
  ⟨fun _ _ _ hab hbc => le_trans hab hbc⟩

/-- Modelled from the spec: `rebuild_cache` buckets the registered delegates
of one kind in a fixed deterministic order — every delegate of the
defender-role (Overlord) side first, then the attacker-role (Champion) side,
each side sorted by canonical card name with the position index as stable
tie-break. -/
def buildCache (ds : List DelegateContextM) : List DelegateContextM :=
  ((ds.filter (fun d => decide (d.side = Side.Overlord))).insertionSort delegateOrder) ++
  ((ds.filter (fun d => decide (d.side = Side.Champion))).insertionSort delegateOrder)

/-- Modelled from the spec: `invoke_event` walks the cache in order,
evaluates each delegate's requirement against the current state and payload,
and runs its mutation when the requirement holds; the cache itself is
read-only for the duration of the pass. Returns the final state together
with the delegates actually invoked, in invocation order. -/
def run_event : List DelegateContextM → GameState → Nat → GameState × List DelegateContextM
  | [], g, _ => (g, [])
  | d :: rest, g, p =>
    if d.requirement g p then
      let out := run_event rest (d.mutation g p) p
      (out.1, d :: out.2)
    else run_event rest g p

/-- The pairwise ordering constraint C3 asserts of the cache: an earlier
entry is never a Champion entry followed by an Overlord entry, and within one
side earlier entries have name keys at most the later ones. -/
def dispatchOrdered (a b : DelegateContextM) : Prop :=
  (a.side = Side.Overlord ∨ b.side = Side.Champion) ∧
  (a.side = b.side → delegateOrder a b)

/-- Two concrete registered delegates, Champion-side first, used to witness
the cache ordering. -/
def c3Delegates : List DelegateContextM :=
  [{ side := Side.Champion
     card_name := "Zeal"
     position_index := 0
     requirement := fun _ _ => true
     mutation := fun g _ => g },
   { side := Side.Overlord
     card_name := "Axe"
     position_index := 1
     requirement := fun _ _ => true
     mutation := fun g _ => g }]

/-! # Theorems -/

/-- Helper: applying overrides to an `Override` flag keeps it an `Override`
whose value is the AND of the current value and every later override. -/
theorem Flag.applyOverrides_override (c : Bool) (l : List Bool) :
    Flag.applyOverrides (Flag.Override c) l = Flag.Override (l.foldl (· && ·) c) := by
  induction l generalizing c with
  | nil => rfl
  | cons b t ih => simpa [Flag.applyOverrides, Flag.with_override] using ih (c && b)

/-- Helper: folding AND starting from false stays false. -/
theorem foldl_and_false (l : List Bool) : l.foldl (· && ·) false = false := by
  induction l with
  | nil => rfl
  | cons b t ih => simpa using ih

/-- Helper: if any element of a boolean list is false, folding AND over it
yields false. -/
theorem foldl_and_eq_false_of_mem (l : List Bool) (c : Bool) (h : false ∈ l) :
    l.foldl (· && ·) c = false := by
  induction l generalizing c with
  | nil => cases h
  | cons b t ih =>
    rcases List.mem_cons.mp h with hb | ht
    · subst hb
      simpa using foldl_and_false t
    · exact ih (c && b) ht

/-- C1: the Flag combination operator satisfies exactly the false-wins law:
the first override applied to a default yields that override; a further
override ANDs into the current override; over any override sequence applied to
a default, a false anywhere in the sequence forces the final boolean to false,
and the empty sequence resolves to the default value. -/
theorem flag_with_override_false_wins (v : Bool) (l : List Bool) :
    (∀ o : Bool, Flag.with_override (Flag.Default v) o = Flag.Override o) ∧
    (∀ c o : Bool, Flag.with_override (Flag.Override c) o = Flag.Override (c && o)) ∧
    (false ∈ l → Flag.toBool (Flag.applyOverrides (Flag.Default v) l) = false) ∧
    Flag.toBool (Flag.applyOverrides (Flag.Default v) []) = v := by
  refine ⟨fun o => rfl, fun c o => rfl, fun hmem => ?_, rfl⟩
  cases l with
  | nil => cases hmem
  | cons b t =>
    have : Flag.applyOverrides (Flag.Default v) (b :: t) =
        Flag.Override (t.foldl (· && ·) b) := by
      simpa [Flag.applyOverrides, Flag.with_override] using
        Flag.applyOverrides_override b t
    rw [this]
    rcases List.mem_cons.mp hmem with hb | ht
    · subst hb
      simp [Flag.toBool, foldl_and_false]
    · simp [Flag.toBool, foldl_and_eq_false_of_mem t b ht]

/-- C1 witness: a concrete override sequence containing a false resolves to
false even though later overrides are true, and the component laws hold. -/
theorem flag_with_override_false_wins_witness :
    Flag.with_override (Flag.Default true) false = Flag.Override false ∧
    Flag.toBool (Flag.applyOverrides (Flag.Default true) [true, false, true]) = false := by
  rcases flag_with_override_false_wins true [true, false, true] with ⟨h1, _, h3, _⟩
  exact ⟨h1 false, h3 (by decide)⟩

/-- Helper: updateAt preserves length. -/
theorem length_updateAt {α : Type} (l : List α) (i : Nat) (f : α → α) :
    (updateAt l i f).length = l.length := by
  induction l generalizing i with
  | nil => rfl
  | cons a t ih =>
    cases i with
    | zero => rfl
    | succ n => simpa [updateAt] using ih n

/-- Helper: updateAt at the updated index. -/
theorem get?_updateAt_self {α : Type} (l : List α) (i : Nat) (f : α → α)
    (h : i < l.length) : (updateAt l i f).get? i = (l.get? i).map f := by
  induction l generalizing i with
  | nil => cases h
  | cons a t ih =>
    cases i with
    | zero => rfl
    | succ n => simpa [updateAt] using ih n (Nat.lt_of_succ_lt_succ h)

/-- Helper: updateAt leaves other indices unchanged. -/
theorem get?_updateAt_ne {α : Type} (l : List α) (i j : Nat) (f : α → α)
    (h : i ≠ j) : (updateAt l i f).get? j = l.get? j := by
  induction l generalizing i j with
  | nil => rfl
  | cons a t ih =>
    cases i with
    | zero => cases j with
      | zero => exact absurd rfl h
      | succ m => rfl
    | succ n => cases j with
      | zero => rfl
      | succ m => simpa [updateAt] using ih n m (fun hnm => h (by omega))

theorem next_sorting_key_move_card (g : GameState) (id : CardId) (pos : CardPosition) :
    (g.move_card id pos).next_sorting_key = g.next_sorting_key + 1 := by
  cases id with
  | mk side index =>
    cases side <;>
      simp [GameState.move_card, GameState.updateCardState, GameState.setCards, GameState.cards]

theorem next_sorting_key_applyMoves (g : GameState) (ms : List (CardId × CardPosition)) :
    (applyMoves g ms).next_sorting_key = g.next_sorting_key + ms.length := by
  induction ms generalizing g with
  | nil => rfl
  | cons m t ih =>
    have := ih (g.move_card m.1 m.2)
    simp only [applyMoves, List.foldl_cons] at this ⊢
    rw [this, next_sorting_key_move_card, List.length_cons]
    omega

/-- C2: sorting keys assigned by move_card are strictly increasing. Each call
stamps the current counter value on the moved card and increments the counter,
so over any sequence of calls the k-th assigned key is the starting counter
plus k, and no assigned key repeats or decreases. -/
theorem move_card_keys_strictly_increasing (g : GameState)
    (ms : List (CardId × CardPosition)) :
    (∀ (id : CardId) (pos : CardPosition),
      (g.move_card id pos).next_sorting_key = g.next_sorting_key + 1 ∧
      (id.index < (g.cards id.side).length →
        ∃ c, g.card? id = some c ∧
          (g.move_card id pos).card? id =
            some { c with position := pos, sorting_key := g.next_sorting_key })) ∧
    (∀ k, k < ms.length → assignedKey g ms k = g.next_sorting_key + k) ∧
    (∀ i j, i < j → j < ms.length → assignedKey g ms i < assignedKey g ms j) := by
  have hkey : ∀ k, k < ms.length → assignedKey g ms k = g.next_sorting_key + k := by
    intro k hk
    have : (ms.take k).length = k := by
      rw [List.length_take]
      omega
    rw [assignedKey, next_sorting_key_applyMoves, this]
  refine ⟨fun id pos => ⟨next_sorting_key_move_card g id pos, fun hidx => ?_⟩,
    hkey, fun i j hij hj => ?_⟩
  · rcases List.get?_eq_get hidx with hc
    refine ⟨(g.cards id.side).get ⟨id.index, hidx⟩, hc, ?_⟩
    have hmain : (g.move_card id pos).card? id =
        ((g.cards id.side).get? id.index).map
          (fun c => { c with position := pos, sorting_key := g.next_sorting_key }) := by
      cases id with
      | mk side index =>
        cases side <;>
          simpa [GameState.move_card, GameState.updateCardState, GameState.setCards,
            GameState.cards, GameState.card?] using
            get?_updateAt_self (α := CardState) _ index _ hidx
    rw [hmain, hc]
    rfl
  · rw [hkey i (Nat.lt_trans hij hj), hkey j hj]
    omega

/-- C2 witness: for a concrete one-card game and a two-move sequence the keys
are the counter values 1 and 2, strictly increasing, and the single-call
clause holds at the card. -/
theorem move_card_keys_strictly_increasing_witness :
    assignedKey c2WitnessGame c2WitnessMoves 0 < assignedKey c2WitnessGame c2WitnessMoves 1 :=
  ((move_card_keys_strictly_increasing c2WitnessGame c2WitnessMoves).2.2) 0 1
    (by decide) (by decide)

/-- C8 (code bug): `make_deck` applies `CardState::new` to every deck entry
with one constant value for the `is_identity: bool` parameter (the source
passes `side: Side` there — a type mismatch), so a fresh game never has
exactly one card per side in the Identity position: the count is 0 under the
false reading and the full deck size under the true reading, and
`GameState::identity` panics or the multiplicity invariant fails accordingly. -/
theorem new_game_identity_count_never_one :
    identityCount (GameState.make_deck false ["Frog", "Toad"] Side.Overlord) = 0 ∧
    identityCount (GameState.make_deck true ["Frog", "Toad"] Side.Overlord) = 2 ∧
    identityCount ((GameState.new_game false 1 ["Frog", "Toad"] ["Newt", "Eft"]
      {}).cards Side.Overlord) = 0 ∧
    identityCount ((GameState.new_game true 1 ["Frog", "Toad"] ["Newt", "Eft"]
      {}).cards Side.Champion) = 2 :=
  ⟨rfl, rfl, rfl, rfl⟩

/-- C10: random_card returns none exactly when the game contains no cards at
all on either side; a returned id is drawn from all cards in the game; and the
position argument has no effect on the result. -/
theorem random_card_ignores_position (g : GameState) (position : CardPosition) (k : Nat) :
    (g.random_card position k = none ↔ g.overlord_cards ++ g.champion_cards = []) ∧
    (∀ id, g.random_card position k = some id →
      id ∈ (g.overlord_cards ++ g.champion_cards).map (fun c => c.id)) ∧
    (∀ p2 : CardPosition, g.random_card position k = g.random_card p2 k) := by
  refine ⟨⟨fun h => ?_, fun h => ?_⟩, fun id h => ?_, fun p2 => rfl⟩
  · by_contra hne
    have hlen : 0 < (g.overlord_cards ++ g.champion_cards).length :=
      List.length_pos.mpr hne
    have hlt : k % (g.overlord_cards ++ g.champion_cards).length <
        (g.overlord_cards ++ g.champion_cards).length := Nat.mod_lt _ hlen
    have hnone : (g.overlord_cards ++ g.champion_cards).get?
        (k % (g.overlord_cards ++ g.champion_cards).length) = none :=
      Option.map_eq_none'.mp h
    have := List.get?_eq_none.mp hnone
    omega
  · simp [GameState.random_card, h]
  · rcases Option.map_eq_some'.mp h with ⟨c, hc, hcid⟩
    exact hcid ▸ List.mem_map_of_mem _ (List.get?_mem hc)

/-- C10 witness: on a concrete one-card game the result is independent of the
position argument, and the returned id is among all cards of the game. -/
theorem random_card_ignores_position_witness :
    c2WitnessGame.random_card (CardPosition.Hand Side.Overlord) 0 =
      c2WitnessGame.random_card (CardPosition.Scored Side.Champion) 0 ∧
    (⟨Side.Overlord, 0⟩ : CardId) ∈
      (c2WitnessGame.overlord_cards ++ c2WitnessGame.champion_cards).map (fun c => c.id) :=
  ⟨((random_card_ignores_position c2WitnessGame (CardPosition.Hand Side.Overlord) 0).2.2)
      (CardPosition.Scored Side.Champion),
    ((random_card_ignores_position c2WitnessGame (CardPosition.Hand Side.Overlord) 0).2.1)
      ⟨Side.Overlord, 0⟩ rfl⟩

/-- C9 counterexample: at a concrete game with an active raid and no
defenders, the raid-phase lookup `find_defender` does not panic on the
nonexistent index 0 — it returns the recoverable error built by `with_error`
— while `can_reveal_defender` is the operation that panics. This refutes the
claim that every raid-phase defender-index lookup panics rather than
returning a recoverable result. -/
theorem find_defender_recoverable_on_missing_index :
    find_defender c9Game RoomId.Vault 0 =
      Except.error (Fault.recoverable "Defender Not Found") ∧
    can_reveal_defender detOracles c9Game 0 =
      Except.error (Fault.panicked "Defender") :=
  ⟨rfl, rfl⟩

/-- C9 (amended): on a nonexistent defender index, `can_reveal_defender`
panics (it wraps the lookup in `expect`), but `find_defender` itself returns
a recoverable error result, which its other callers propagate with the
question-mark operator instead of panicking. -/
theorem defender_index_lookup_error_vs_panic (o : Oracles) (g : GameState)
    (r : RaidState) (i : Nat) (hr : g.data.raid = some r)
    (hidx : (g.defender_list r.target).length ≤ i) :
    find_defender g r.target i = Except.error (Fault.recoverable "Defender Not Found") ∧
    can_reveal_defender o g i = Except.error (Fault.panicked "Defender") := by
  have hnone : (g.defender_list r.target).get? i = none := List.get?_eq_none.mpr hidx
  have hfd : find_defender g r.target i =
      Except.error (Fault.recoverable "Defender Not Found") := by
    unfold find_defender withErr
    rw [hnone]
    rfl
  refine ⟨hfd, ?_⟩
  simp [can_reveal_defender, hr, hfd]

/-- C9 witness: the amended statement instantiated at a concrete game and
index. -/
theorem defender_index_lookup_error_vs_panic_witness :
    find_defender c9Game c9Raid.target 2 =
      Except.error (Fault.recoverable "Defender Not Found") ∧
    can_reveal_defender detOracles c9Game 2 =
      Except.error (Fault.panicked "Defender") :=
  defender_index_lookup_error_vs_panic detOracles c9Game c9Raid 2 rfl (by decide)

/-- C7: exactly one side is handed the actionable raid prompt by
`set_raid_prompt`, and that side is determined by the phase: the Overlord
during Activation and the Champion during Encounter, Continue and Access; the
opponent is left without a prompt (the waiting indicator). -/
theorem set_raid_prompt_single_active_side (o : Oracles) (g : GameState)
    (r : RaidState) (g' : GameState) (hr : g.data.raid = some r)
    (h : set_raid_prompt o g = Except.ok g') :
    (g'.player (raidActiveSide r.phase)).prompt.isSome = true ∧
    (g'.player (raidActiveSide r.phase).opponent).prompt = none := by
  obtain ⟨rid, target, phase, ra, acc, prio, en⟩ := r
  unfold set_raid_prompt at h
  rw [hr] at h
  cases phase with
  | Activation =>
    simp only [] at h
    cases h
    simp [raidActiveSide, set_prompt, GameState.setPlayer, GameState.player, Side.opponent]
  | Encounter d =>
    simp only [] at h
    cases hb : build_encounter_prompt o g d with
    | error e => rw [hb] at h; cases h
    | ok p =>
      rw [hb] at h
      cases h
      simp [raidActiveSide, set_prompt, GameState.setPlayer, GameState.player, Side.opponent]
  | Continue d =>
    simp only [] at h
    cases h
    simp [raidActiveSide, set_prompt, GameState.setPlayer, GameState.player, Side.opponent]
  | Access =>
    simp only [] at h
    cases hb : build_access_prompt o g with
    | error e => rw [hb] at h; cases h
    | ok p =>
      rw [hb] at h
      cases h
      simp [raidActiveSide, set_prompt, GameState.setPlayer, GameState.player, Side.opponent]

/-- C7 witness: on the concrete Activation-phase game, the Overlord holds the
actionable prompt and the Champion has none. -/
theorem set_raid_prompt_single_active_side_witness :
    (c7Result.player (raidActiveSide c9Raid.phase)).prompt.isSome = true ∧
    (c7Result.player (raidActiveSide c9Raid.phase).opponent).prompt = none :=
  set_raid_prompt_single_active_side detOracles c9Game c9Raid c7Result rfl rfl

/-- C5: on entering Access against the Crypts, the computed accessed-card
list contains exactly the ids of the Overlord's discard-pile cards that are
not already revealed to the Champion — in particular never a card already
revealed to the Champion. -/
theorem crypts_access_exactly_unrevealed_discard (o : Oracles) (g : GameState)
    (r : RaidState) (hr : g.data.raid = some r) (ht : r.target = RoomId.Crypts) :
    ∃ acc g2, accessed_cards o g = Except.ok (acc, g2) ∧
      ∀ id : CardId, id ∈ acc ↔ ∃ c : CardState, c ∈ g.overlord_cards ∧ c.id = id ∧
        c.position = CardPosition.DiscardPile Side.Overlord ∧
        c.is_revealed_to Side.Champion = false := by
  refine ⟨(accessed_pair o g RoomId.Crypts).1,
    (accessed_pair o g RoomId.Crypts).1.foldl
      (fun gg i => set_revealed_to gg i Side.Champion true)
      (accessed_pair o g RoomId.Crypts).2, ?_, ?_⟩
  · unfold accessed_cards
    rw [hr]
    dsimp only
    rw [ht]
  · intro id
    simp only [accessed_pair, GameState.card_list_for_position, GameState.cards,
      List.mem_map, List.mem_filter, Bool.not_eq_true', decide_eq_true_eq]
    constructor
    · rintro ⟨c, ⟨⟨hmem, hpos⟩, hrev⟩, hid⟩
      exact ⟨c, hmem, hid, hpos, hrev⟩
    · rintro ⟨c, hmem, hid, hpos, hrev⟩
      exact ⟨c, ⟨⟨hmem, hpos⟩, hrev⟩, hid⟩

/-- C5 witness: on the concrete Crypts game the characterization holds; the
hidden discard card is accessed and the already revealed one is not. -/
theorem crypts_access_exactly_unrevealed_discard_witness :
    ∃ acc g2, accessed_cards detOracles c5Game = Except.ok (acc, g2) ∧
      ∀ id : CardId, id ∈ acc ↔ ∃ c : CardState, c ∈ c5Game.overlord_cards ∧ c.id = id ∧
        c.position = CardPosition.DiscardPile Side.Overlord ∧
        c.is_revealed_to Side.Champion = false :=
  crypts_access_exactly_unrevealed_discard detOracles c5Game c5Raid rfl rfl

/-! ## Preservation lemmas for the state mutators -/

/-- How updateCardState acts on each side's card vector. -/
theorem cards_updateCardState (g : GameState) (id : CardId) (f : CardState → CardState)
    (s2 : Side) :
    (g.updateCardState id f).cards s2 =
      if id.side = s2 then updateAt (g.cards s2) id.index f else g.cards s2 := by
  obtain ⟨side, index⟩ := id
  cases side <;> cases s2 <;>
    simp [GameState.updateCardState, GameState.setCards, GameState.cards]

/-- A card's id is unchanged by `set_revealed_to`. -/
theorem id_set_revealed_to (c : CardState) (side : Side) (v : Bool) :
    (c.set_revealed_to side v).id = c.id := by
  unfold CardState.set_revealed_to
  split <;> rfl

/-- A card's position is unchanged by `set_revealed_to`. -/
theorem position_set_revealed_to (c : CardState) (side : Side) (v : Bool) :
    (c.set_revealed_to side v).position = c.position := by
  unfold CardState.set_revealed_to
  split <;> rfl

/-- Setting a reveal flag true makes the card revealed to that side, whatever
its prior state. -/
theorem is_revealed_to_set_true (c : CardState) (side : Side) :
    (c.set_revealed_to side true).is_revealed_to side = true := by
  unfold CardState.set_revealed_to CardState.is_revealed_to
  by_cases h : c.id.side = side <;> simp [h]

/-- The reveal mutator does not change the length of any card vector. -/
theorem length_cards_set_revealed (g : GameState) (x : CardId) (side : Side) (v : Bool)
    (s2 : Side) :
    ((set_revealed_to g x side v).cards s2).length = (g.cards s2).length := by
  unfold set_revealed_to
  rw [cards_updateCardState]
  split <;> simp [length_updateAt]

/-- A single move does not change the length of any card vector. -/
theorem length_cards_move_card (g : GameState) (id : CardId) (pos : CardPosition)
    (s2 : Side) : ((g.move_card id pos).cards s2).length = (g.cards s2).length := by
  obtain ⟨side, index⟩ := id
  cases side <;> cases s2 <;>
    simp [GameState.move_card, GameState.updateCardState, GameState.setCards,
      GameState.cards, length_updateAt]

/-- A fold of moves does not change the length of any card vector. -/
theorem length_cards_foldl_move (l : List CardId) (g : GameState) (pos : CardPosition)
    (s2 : Side) :
    ((l.foldl (fun gg i => gg.move_card i pos) g).cards s2).length =
      (g.cards s2).length := by
  induction l generalizing g with
  | nil => rfl
  | cons x t ih =>
    rw [List.foldl_cons, ih, length_cards_move_card]

/-! ## Id-consistency lemmas -/

theorem consistentFrom_get? (side : Side) (l : List CardState) :
    ∀ (start i : Nat) (c : CardState), consistentFrom side start l = true →
      l.get? i = some c → c.id = ⟨side, start + i⟩ := by
  induction l with
  | nil => intro start i c _ hc; cases hc
  | cons a t ih =>
    intro start i c hcons hc
    rw [consistentFrom, Bool.and_eq_true] at hcons
    obtain ⟨h1, h2⟩ := hcons
    cases i with
    | zero =>
      cases hc
      simpa using of_decide_eq_true h1
    | succ n =>
      have := ih (start + 1) n c h2 hc
      rw [this]
      simp [CardId.mk.injEq]
      omega

/-- The card found at slot i of a side's vector of a consistent game carries
id (side, i). -/
theorem idsConsistent_spec (g : GameState) (h : idsConsistent g = true) (side : Side)
    (i : Nat) (c : CardState) (hc : (g.cards side).get? i = some c) :
    c.id = ⟨side, i⟩ := by
  rw [idsConsistent, Bool.and_eq_true] at h
  cases side with
  | Overlord => simpa using consistentFrom_get? Side.Overlord g.overlord_cards 0 i c h.1 hc
  | Champion => simpa using consistentFrom_get? Side.Champion g.champion_cards 0 i c h.2 hc

/-- In a consistent game, looking up the id of a member card finds that card,
and the id indexes within bounds. -/
theorem card?_of_mem_cards (g : GameState) (h : idsConsistent g = true) (side : Side)
    (c : CardState) (hm : c ∈ g.cards side) :
    g.card? c.id = some c ∧ c.id.index < (g.cards c.id.side).length := by
  obtain ⟨i, hi⟩ := List.get?_of_mem hm
  have hid := idsConsistent_spec g h side i c hi
  have hlt : i < (g.cards side).length := by
    obtain ⟨hlt, _⟩ := List.get?_eq_some.mp hi
    exact hlt
  rw [GameState.card?, hid]
  exact ⟨hi, hlt⟩

/-- In a consistent game a member card's id indexes within bounds. -/
theorem valid_of_mem_cards (g : GameState) (h : idsConsistent g = true) (side : Side)
    (c : CardState) (hm : c ∈ g.cards side) :
    c.id.index < (g.cards c.id.side).length :=
  (card?_of_mem_cards g h side c hm).2

/-- Mapped ids of cards drawn from one side's vector index within bounds. -/
theorem valid_of_id_mem_map (g : GameState) (hcons : idsConsistent g = true) (side : Side)
    (l : List CardState) (hsubl : ∀ c ∈ l, c ∈ g.cards side) :
    ∀ id ∈ l.map (fun c => c.id), id.index < (g.cards id.side).length := by
  intro id hid
  obtain ⟨c, hc, rfl⟩ := List.mem_map.mp hid
  exact valid_of_mem_cards g hcons side c (hsubl c hc)

/-- A member of all_cards belongs to one of the two card vectors and its id
indexes within bounds. -/
theorem valid_of_mem_all_cards (g : GameState) (hcons : idsConsistent g = true)
    (c : CardState) (hm : c ∈ g.all_cards) :
    c.id.index < (g.cards c.id.side).length := by
  rcases List.mem_append.mp hm with ho | hc2
  · exact valid_of_mem_cards g hcons Side.Overlord c ho
  · exact valid_of_mem_cards g hcons Side.Champion c hc2

/-! ## Reveal-fold lemmas -/

/-- After setting a valid card revealed-true, the lookup sees it revealed. -/
theorem isRevealedTo_set_true_self (g : GameState) (x : CardId)
    (hv : x.index < (g.cards x.side).length) :
    isRevealedTo (set_revealed_to g x Side.Champion true) x Side.Champion = true := by
  unfold isRevealedTo GameState.card? set_revealed_to
  rw [cards_updateCardState, if_pos rfl, get?_updateAt_self _ _ _ hv]
  cases hc : (g.cards x.side).get? x.index with
  | none =>
    have := List.get?_eq_none.mp hc
    omega
  | some c => simp [is_revealed_to_set_true]

/-- Setting another card revealed-true never unreveals a card. -/
theorem isRevealedTo_set_true_mono (g : GameState) (x id : CardId)
    (h : isRevealedTo g id Side.Champion = true) :
    isRevealedTo (set_revealed_to g x Side.Champion true) id Side.Champion = true := by
  unfold isRevealedTo GameState.card? at h ⊢
  unfold set_revealed_to
  rw [cards_updateCardState]
  by_cases hs : x.side = id.side
  · rw [if_pos hs]
    by_cases hi : x.index = id.index
    · cases hc : (g.cards id.side).get? id.index with
      | none => rw [hc] at h; exact absurd h (by simp)
      | some c =>
        have hvlt : id.index < (g.cards id.side).length := by
          by_contra hge
          rw [List.get?_eq_none.mpr (Nat.le_of_not_lt hge)] at hc
          cases hc
        rw [hi, get?_updateAt_self _ _ _ hvlt, hc]
        simp [is_revealed_to_set_true]
    · rw [get?_updateAt_ne _ _ _ _ hi]
      exact h
  · rw [if_neg hs]
    exact h

/-- A reveal fold preserves already-revealed cards. -/
theorem reveal_foldl_mono (l : List CardId) (g : GameState) (id : CardId)
    (h : isRevealedTo g id Side.Champion = true) :
    isRevealedTo (l.foldl (fun gg i => set_revealed_to gg i Side.Champion true) g)
      id Side.Champion = true := by
  induction l generalizing g with
  | nil => exact h
  | cons x t ih =>
    rw [List.foldl_cons]
    exact ih _ (isRevealedTo_set_true_mono g x id h)

/-- After the reveal fold, every card of the folded list is revealed to the
Champion, provided each id indexes within bounds. -/
theorem reveal_foldl_all (l : List CardId) (g : GameState)
    (hval : ∀ id ∈ l, id.index < (g.cards id.side).length) :
    ∀ id ∈ l,
      isRevealedTo (l.foldl (fun gg i => set_revealed_to gg i Side.Champion true) g)
        id Side.Champion = true := by
  induction l generalizing g with
  | nil => intro id hid; cases hid
  | cons x t ih =>
    intro id hid
    rw [List.foldl_cons]
    rcases List.mem_cons.mp hid with rfl | hmem
    · exact reveal_foldl_mono t _ id
        (isRevealedTo_set_true_self g id (hval id (List.mem_cons_self _ _)))
    · exact ih (set_revealed_to g x Side.Champion true)
        (fun j hj => by
          rw [length_cards_set_revealed]
          exact hval j (List.mem_cons_of_mem _ hj)) id hmem

/-- Members of the sorted deck list are cards of the side's vector. -/
theorem mem_cards_of_mem_deckTopFirst (g : GameState) (side : Side) (c : CardState)
    (h : c ∈ deckTopFirst g side) : c ∈ g.cards side := by
  rw [deckTopFirst, List.mem_insertionSort] at h
  exact (List.mem_filter.mp h).1

/-- C6: every card id in the computed accessed list is marked revealed to the
Champion in the state `accessed_cards` returns, for every room type. -/
theorem accessed_cards_all_revealed (o : Oracles) (g : GameState)
    (hcons : idsConsistent g = true)
    (hchoose : ∀ (l : List CardId) (n : Nat), ∀ x ∈ o.choose_multiple l n, x ∈ l)
    (acc : List CardId) (g2 : GameState)
    (h : accessed_cards o g = Except.ok (acc, g2)) :
    ∀ id ∈ acc, isRevealedTo g2 id Side.Champion = true := by
  unfold accessed_cards at h
  cases hr : g.data.raid with
  | none => rw [hr] at h; cases h
  | some r =>
    rw [hr] at h
    dsimp only at h
    injection h with h
    injection h with hacc hg2
    subst hacc
    subst hg2
    refine reveal_foldl_all _ _ ?_
    cases htarget : r.target with
    | Vault =>
      unfold accessed_pair realize_top_of_deck
      dsimp only
      intro id hid
      rw [length_cards_foldl_move]
      split at hid
      · exact valid_of_id_mem_map g hcons Side.Overlord _
          (fun c hc => mem_cards_of_mem_deckTopFirst g _ c hc) id
          (List.mem_of_mem_take hid)
      · have := hchoose _ _ id hid
        exact valid_of_id_mem_map g hcons Side.Overlord _
          (fun c hc => mem_cards_of_mem_deckTopFirst g _ c hc) id this
    | Sanctum =>
      unfold accessed_pair
      dsimp only
      split
      · intro id hid
        dsimp only at hid ⊢
        exact valid_of_id_mem_map g hcons Side.Overlord _
          (fun c hc => (List.mem_filter.mp hc).1) id (List.mem_of_mem_take hid)
      · intro id hid
        dsimp only at hid ⊢
        have := hchoose _ _ id hid
        exact valid_of_id_mem_map g hcons Side.Overlord _
          (fun c hc => (List.mem_filter.mp hc).1) id this
    | Crypts =>
      unfold accessed_pair
      dsimp only
      intro id hid
      refine valid_of_id_mem_map g hcons Side.Overlord _ (fun c hc => ?_) id hid
      exact (List.mem_filter.mp
        ((List.mem_filter.mp hc).1 : c ∈ (g.card_list_for_position _ _))).1
    | RoomA =>
      unfold accessed_pair
      dsimp only
      intro id hid
      obtain ⟨c, hc, rfl⟩ := List.mem_map.mp hid
      exact valid_of_mem_all_cards g hcons c (List.mem_filter.mp hc).1
    | RoomB =>
      unfold accessed_pair
      dsimp only
      intro id hid
      obtain ⟨c, hc, rfl⟩ := List.mem_map.mp hid
      exact valid_of_mem_all_cards g hcons c (List.mem_filter.mp hc).1

/-- C6 witness: on the concrete Crypts access, the accessed hidden discard
card is revealed to the Champion in the returned state. -/
theorem accessed_cards_all_revealed_witness :
    isRevealedTo c6Pair.2 ⟨Side.Overlord, 0⟩ Side.Champion = true :=
  accessed_cards_all_revealed detOracles c5Game rfl
    (fun _ _ _ hx => List.mem_of_mem_take hx) c6Pair.1 c6Pair.2 rfl
    ⟨Side.Overlord, 0⟩ (by decide)

/-! ## Further preservation lemmas, used for the Encounter entry action -/

theorem data_updateCardState (g : GameState) (id : CardId) (f : CardState → CardState) :
    (g.updateCardState id f).data = g.data := by
  obtain ⟨side, index⟩ := id
  cases side <;> rfl

theorem data_set_revealed (g : GameState) (x : CardId) (s : Side) (v : Bool) :
    (set_revealed_to g x s v).data = g.data :=
  data_updateCardState g x _

theorem data_spend_mana (g : GameState) (s : Side) (a : Nat) :
    (spend_mana g s a).data = g.data := by
  cases s <;> rfl

theorem player_updateCardState (g : GameState) (id : CardId) (f : CardState → CardState)
    (s2 : Side) : (g.updateCardState id f).player s2 = g.player s2 := by
  obtain ⟨side, index⟩ := id
  cases side <;> cases s2 <;> rfl

theorem player_set_revealed (g : GameState) (x : CardId) (s : Side) (v : Bool)
    (s2 : Side) : (set_revealed_to g x s v).player s2 = g.player s2 :=
  player_updateCardState g x _ s2

theorem mana_spend_mana_self (g : GameState) (s : Side) (a : Nat) :
    ((spend_mana g s a).player s).mana = (g.player s).mana - a := by
  cases s <;> rfl

theorem cards_spend_mana (g : GameState) (s : Side) (a : Nat) (s2 : Side) :
    (spend_mana g s a).cards s2 = g.cards s2 := by
  cases s <;> cases s2 <;> rfl

theorem mana_set_prompt (g : GameState) (side : Side) (p : Prompt) (s2 : Side) :
    ((set_prompt g side p).player s2).mana = (g.player s2).mana := by
  cases side <;> cases s2 <;> rfl

theorem cards_set_prompt (g : GameState) (side : Side) (p : Prompt) (s2 : Side) :
    (set_prompt g side p).cards s2 = g.cards s2 := by
  cases side <;> cases s2 <;> rfl

theorem isRevealedTo_set_prompt (g : GameState) (side : Side) (p : Prompt)
    (id : CardId) (s2 : Side) :
    isRevealedTo (set_prompt g side p) id s2 = isRevealedTo g id s2 := by
  unfold isRevealedTo GameState.card?
  rw [cards_set_prompt]

/-- Updating one element without changing the filter predicate's verdict
preserves the filtered length. -/
theorem length_filter_updateAt (l : List CardState) (i : Nat) (f : CardState → CardState)
    (p : CardState → Bool) (hf : ∀ c, p (f c) = p c) :
    ((updateAt l i f).filter p).length = (l.filter p).length := by
  induction l generalizing i with
  | nil => rfl
  | cons a t ih =>
    cases i with
    | zero =>
      simp only [updateAt, List.filter_cons, hf a]
      cases p a <;> simp
    | succ n =>
      simp only [updateAt, List.filter_cons]
      cases p a <;> simp [ih n]

theorem length_defender_list_set_revealed (g : GameState) (x : CardId) (s : Side)
    (v : Bool) (room : RoomId) :
    ((set_revealed_to g x s v).defender_list room).length =
      (g.defender_list room).length := by
  unfold GameState.defender_list set_revealed_to
  rw [cards_updateCardState]
  split
  · exact length_filter_updateAt _ _ _ _ (fun c => by rw [position_set_revealed_to])
  · rfl

theorem defender_list_spend_mana (g : GameState) (s : Side) (a : Nat) (room : RoomId) :
    (spend_mana g s a).defender_list room = g.defender_list room := by
  unfold GameState.defender_list
  rw [cards_spend_mana]

theorem find_defender_ok (g : GameState) (room : RoomId) (n : Nat) (c : CardState)
    (hc : (g.defender_list room).get? n = some c) :
    find_defender g room n = Except.ok c.id := by
  unfold find_defender withErr
  rw [hc]
  rfl

/-- Evaluation of `can_reveal_defender` when the raid and the indexed
defender exist in a consistent game. -/
theorem can_reveal_defender_eq (o : Oracles) (g : GameState) (r : RaidState) (n : Nat)
    (c : CardState) (hcons : idsConsistent g = true) (hr : g.data.raid = some r)
    (hc : (g.defender_list r.target).get? n = some c) :
    can_reveal_defender o g n =
      Except.ok (r.room_active && !(c.is_revealed_to Side.Champion) &&
        (match o.mana_cost g c.id with
         | some cost => decide (cost ≤ (g.player Side.Overlord).mana)
         | none => false)) := by
  have hmem : c ∈ g.cards Side.Overlord := (List.mem_filter.mp (List.get?_mem hc)).1
  have hcard : g.card? c.id = some c := (card?_of_mem_cards g hcons Side.Overlord c hmem).1
  have hfd := find_defender_ok g r.target n c hc
  simp [can_reveal_defender, hr, hfd, hcard]

/-- C4 (amended): on entering Encounter(n), when the targeted room is active,
the defender at index n is not yet revealed to the Champion, and the defender
has a mana cost the Overlord can afford, the engine spends that cost from the
Overlord's pool and reveals the defender to the Champion; otherwise — in
particular whenever the room is not active — the card vectors and the
Overlord's mana are unchanged by phase entry. -/
theorem on_enter_encounter_auto_reveal (o : Oracles) (g : GameState) (r : RaidState)
    (n : Nat) (c : CardState)
    (hcons : idsConsistent g = true)
    (hr : g.data.raid = some r)
    (hph : r.phase = RaidPhase.Encounter n)
    (hc : (g.defender_list r.target).get? n = some c) :
    (∀ cost : Nat, r.room_active = true → c.is_revealed_to Side.Champion = false →
      o.mana_cost g c.id = some cost → cost ≤ (g.player Side.Overlord).mana →
      ∃ g' : GameState, on_enter_raid_phase o g = Except.ok g' ∧
        (g'.player Side.Overlord).mana = (g.player Side.Overlord).mana - cost ∧
        isRevealedTo g' c.id Side.Champion = true) ∧
    ((r.room_active = false ∨ c.is_revealed_to Side.Champion = true ∨
        o.mana_cost g c.id = none ∨
        (∃ cost : Nat, o.mana_cost g c.id = some cost ∧
          (g.player Side.Overlord).mana < cost)) →
      ∃ g' : GameState, on_enter_raid_phase o g = Except.ok g' ∧
        g'.overlord_cards = g.overlord_cards ∧
        g'.champion_cards = g.champion_cards ∧
        (g'.player Side.Overlord).mana = (g.player Side.Overlord).mana) := by
  obtain ⟨rid, rtarget, rphase, ra, racc, rpri, ren⟩ := r
  simp only at hph
  subst hph
  simp only at hc ⊢
  have hcr := can_reveal_defender_eq o g ⟨rid, rtarget, RaidPhase.Encounter n, ra, racc,
    rpri, ren⟩ n c hcons hr hc
  simp only at hcr
  have hfd := find_defender_ok g rtarget n c hc
  have hn : n < (g.defender_list rtarget).length := by
    obtain ⟨hlt, _⟩ := List.get?_eq_some.mp hc
    exact hlt
  constructor
  · intro cost hra hrev hcost hle
    have hB : (ra && !(c.is_revealed_to Side.Champion) &&
        (match o.mana_cost g c.id with
         | some cost => decide (cost ≤ (g.player Side.Overlord).mana)
         | none => false)) = true := by
      rw [hra, hrev, hcost]
      simpa using hle
    unfold on_enter_raid_phase
    rw [hr]
    dsimp only
    rw [hcr]
    dsimp only
    rw [hB]
    simp only [eq_self_iff_true, if_true]
    rw [hfd]
    dsimp only
    rw [hcost]
    dsimp only
    set g2 := set_revealed_to (spend_mana g Side.Overlord cost) c.id Side.Champion true
      with hg2
    have hdata2 : g2.data = g.data := by
      rw [hg2, data_set_revealed, data_spend_mana]
    have hraid2 : g2.data.raid =
        some ⟨rid, rtarget, RaidPhase.Encounter n, ra, racc, rpri, ren⟩ := by
      rw [hdata2, hr]
    have hlen2 : (g2.defender_list rtarget).length = (g.defender_list rtarget).length := by
      rw [hg2, length_defender_list_set_revealed, defender_list_spend_mana]
    obtain ⟨c2, hc2⟩ : ∃ c2, (g2.defender_list rtarget).get? n = some c2 := by
      have hlt2 : n < (g2.defender_list rtarget).length := by
        rw [hlen2]
        exact hn
      exact ⟨_, List.get?_eq_get hlt2⟩
    have hfd2 := find_defender_ok g2 rtarget n c2 hc2
    unfold set_raid_prompt build_encounter_prompt
    rw [hraid2]
    dsimp only
    rw [hfd2]
    dsimp only
    refine ⟨_, rfl, ?_, ?_⟩
    · rw [mana_set_prompt, hg2, player_set_revealed, mana_spend_mana_self]
    · rw [isRevealedTo_set_prompt, hg2]
      have hmem : c ∈ g.cards Side.Overlord := (List.mem_filter.mp (List.get?_mem hc)).1
      have hv : c.id.index < (g.cards c.id.side).length :=
        (card?_of_mem_cards g hcons Side.Overlord c hmem).2
      refine isRevealedTo_set_true_self _ _ ?_
      rw [cards_spend_mana]
      exact hv
  · intro hdisj
    have hB : (ra && !(c.is_revealed_to Side.Champion) &&
        (match o.mana_cost g c.id with
         | some cost => decide (cost ≤ (g.player Side.Overlord).mana)
         | none => false)) = false := by
      rcases hdisj with h1 | h2 | h3 | ⟨cost, hcost, hlt⟩
      · rw [h1]
        simp
      · rw [h2]
        simp
      · rw [h3]
        simp
      · have : decide (cost ≤ (g.player Side.Overlord).mana) = false :=
          decide_eq_false (by omega)
        simp only [hcost, this]
        simp
    unfold on_enter_raid_phase
    rw [hr]
    dsimp only
    rw [hcr]
    dsimp only
    rw [hB]
    simp only [Bool.false_eq_true, if_false]
    unfold set_raid_prompt build_encounter_prompt
    rw [hr]
    dsimp only
    rw [hfd]
    dsimp only
    refine ⟨_, rfl, ?_, ?_, ?_⟩
    · exact cards_set_prompt g Side.Champion _ Side.Overlord
    · exact cards_set_prompt g Side.Champion _ Side.Champion
    · exact mana_set_prompt g Side.Champion _ Side.Overlord

/-- C4 counterexample: a concrete game entering Encounter(0) whose defender
is unrevealed and affordable, but whose room is not active: the claim as
stated demands a mana spend and a reveal on phase entry, yet the engine
leaves the Overlord's 5 mana and the reveal flag untouched. -/
theorem on_enter_no_reveal_when_room_inactive :
    (on_enter_raid_phase detOracles c4Game).map
        (fun g' => ((g'.player Side.Overlord).mana,
          isRevealedTo g' ⟨Side.Overlord, 0⟩ Side.Champion)) = Except.ok (5, false) ∧
    c4Defender.is_revealed_to Side.Champion = false ∧
    detOracles.mana_cost c4Game c4Defender.id = some 1 ∧
    1 ≤ (c4Game.player Side.Overlord).mana :=
  ⟨rfl, rfl, rfl, by decide⟩

/-- C4 witness: on the concrete room-active variant the phase entry spends
the 1 mana cost and reveals the defender. -/
theorem on_enter_encounter_auto_reveal_witness :
    ∃ g' : GameState, on_enter_raid_phase detOracles c4RevealGame = Except.ok g' ∧
      (g'.player Side.Overlord).mana = (c4RevealGame.player Side.Overlord).mana - 1 ∧
      isRevealedTo g' c4Defender.id Side.Champion = true :=
  (on_enter_encounter_auto_reveal detOracles c4RevealGame c4RevealRaid 0 c4Defender
    rfl rfl rfl rfl).1 1 rfl rfl rfl (by decide)

/-! ## Dispatch-order lemmas -/

/-- A member of the sorted Overlord bucket is an Overlord entry. -/
theorem side_of_mem_bucket (ds : List DelegateContextM) (s : Side)
    (d : DelegateContextM)
    (h : d ∈ (ds.filter (fun x => decide (x.side = s))).insertionSort delegateOrder) :
    d.side = s := by
  rw [List.mem_insertionSort] at h
  exact of_decide_eq_true (List.mem_filter.mp h).2

/-- The cache built from any registered delegate list is pairwise ordered:
Overlord entries precede Champion entries, and entries of the same side are
in name-key order. -/
theorem buildCache_pairwise (ds : List DelegateContextM) :
    List.Pairwise dispatchOrdered (buildCache ds) := by
  unfold buildCache
  rw [List.pairwise_append]
  refine ⟨?_, ?_, ?_⟩
  · refine List.Pairwise.imp_of_mem (fun ha hb hord => ?_)
      (List.sorted_insertionSort delegateOrder _)
    exact ⟨Or.inl (side_of_mem_bucket ds Side.Overlord _ ha), fun _ => hord⟩
  · refine List.Pairwise.imp_of_mem (fun ha hb hord => ?_)
      (List.sorted_insertionSort delegateOrder _)
    exact ⟨Or.inr (side_of_mem_bucket ds Side.Champion _ hb), fun _ => hord⟩
  · intro a ha b hb
    have hA := side_of_mem_bucket ds Side.Overlord a ha
    have hB := side_of_mem_bucket ds Side.Champion b hb
    refine ⟨Or.inl hA, fun heq => ?_⟩
    rw [hA, hB] at heq
    cases heq

/-- The invoked delegates form a sublist of the cache: invocation order is
cache order. -/
theorem run_event_invoked_sublist (cache : List DelegateContextM) (g : GameState)
    (p : Nat) : (run_event cache g p).2.Sublist cache := by
  induction cache generalizing g with
  | nil => simp [run_event]
  | cons d rest ih =>
    cases hreq : d.requirement g p with
    | true =>
      simp only [run_event, hreq, if_true]
      exact List.cons_sublist_cons.mpr (ih _)
    | false =>
      simp only [run_event, hreq]
      simpa using (ih g).cons d

/-- C3: event dispatch order is deterministic and fixed by cache
construction — in the built cache every Overlord (defender-role) entry
precedes every Champion (attacker-role) entry and entries of one side are in
lexicographic card-name order (position-index tie-break); the delegates a
dispatch actually invokes are a sublist of the cache (run in cache order) and
satisfy the same ordering; and re-running dispatch against an identical cache
and payload invokes the same delegates in the same order. -/
theorem dispatch_order_deterministic (ds : List DelegateContextM) (g : GameState)
    (p : Nat) :
    List.Pairwise dispatchOrdered (buildCache ds) ∧
    (run_event (buildCache ds) g p).2.Sublist (buildCache ds) ∧
    List.Pairwise dispatchOrdered (run_event (buildCache ds) g p).2 ∧
    run_event (buildCache ds) g p = run_event (buildCache ds) g p :=
  ⟨buildCache_pairwise ds,
    run_event_invoked_sublist _ g p,
    List.Pairwise.sublist (run_event_invoked_sublist _ g p) (buildCache_pairwise ds),
    rfl⟩

/-- C3 witness: the ordering facts instantiated at a concrete delegate list
and payload. -/
theorem dispatch_order_deterministic_witness :
    List.Pairwise dispatchOrdered (buildCache c3Delegates) ∧
    (run_event (buildCache c3Delegates) c9Game 0).2.Sublist (buildCache c3Delegates) :=
  ⟨(dispatch_order_deterministic c3Delegates c9Game 0).1,
    (dispatch_order_deterministic c3Delegates c9Game 0).2.1⟩

end Spelldawn
